import Mathlib

/-!
Shallow embedding of `ecr-insights` (src/main.rs), a one-shot reporting tool
that estimates monthly ECR storage cost per repository.

Modelling conventions:
* `NaiveDateTime` values are represented by their timestamp in seconds as `Int`
  (the code builds every `NaiveDateTime` via `from_timestamp(secs, 0)`, so
  comparison of datetimes is exactly comparison of the seconds).
* Byte sizes are `Int` (Rust `i64`); counts are `Nat` (Rust `usize`).
* `f64` cost arithmetic is modelled over `ℚ` (exact rationals); the decimal
  literals `0.65` and `0.10` of the source become the rationals 13/20 and 1/10.
* The ECR network client is modelled as a pre-determined stream of page
  responses: each `describe_images` / `describe_repositories` request consumes
  the next element of the stream, which is either an error (`Except.error`,
  the `?` propagation in the source) or a page (`PageResp`).
* Rust's `Vec::sort_by` is a stable sort; it is modelled by `List.mergeSort`,
  which is also stable, with the boolean translation of the same comparator.
* Writes to stdout / the `TabWriter` are modelled as a pure list of emitted
  lines (`OutLine`), in the order they appear on the terminal; write errors
  (`IoError`) are not modelled.
-/

namespace EcrInsights

instance {ε α : Type} [DecidableEq ε] [DecidableEq α] : DecidableEq (Except ε α)
  | .ok a, .ok b =>
    if h : a = b then .isTrue (by rw [h]) else .isFalse (by simp [h])
  | .ok _, .error _ => .isFalse (by simp)
  | .error _, .ok _ => .isFalse (by simp)
  | .error a, .error b =>
    if h : a = b then .isTrue (by rw [h]) else .isFalse (by simp [h])

/-- rusoto `ImageDetail`, restricted to the fields main.rs reads:
`image_pushed_at : Option<f64>` (seconds, truncated to `i64` by the source) and
`image_size_in_bytes : Option<i64>`. -/
structure ImageDetail where
  image_pushed_at : Option Int
  image_size_in_bytes : Option Int
deriving DecidableEq, Repr

/-- rusoto `Repository`, restricted to the field main.rs reads. -/
structure Repository where
  repository_name : Option String
deriving DecidableEq, Repr

/-- `pushed_at` (main.rs:96-98): a missing push timestamp defaults to 0,
i.e. the epoch (`NaiveDateTime::from_timestamp(0, 0)`). -/
def pushed_at (details : ImageDetail) : Int :=
  details.image_pushed_at.getD 0

/-- `details.image_size_in_bytes.unwrap_or_default()`, the size accessor the
source inlines at main.rs:127, 131 and 135. -/
def image_size (details : ImageDetail) : Int :=
  details.image_size_in_bytes.getD 0

/-- The comparator of `images.sort_by(|a, b| pushed_at(b).cmp(&pushed_at(a)))`
(main.rs:116), as the before-or-equal relation of a stable sort: `a` may come
before `b` exactly when `pushed_at b ≤ pushed_at a` (descending by push time). -/
def image_desc (a b : ImageDetail) : Prop :=
  pushed_at b ≤ pushed_at a

instance : DecidableRel image_desc :=
  fun a b => inferInstanceAs (Decidable (pushed_at b ≤ pushed_at a))

instance : IsTotal ImageDetail image_desc :=
  ⟨fun a b => le_total (pushed_at b) (pushed_at a)⟩

instance : IsTrans ImageDetail image_desc :=
  ⟨fun _ _ _ hab hbc => le_trans hbc hab⟩

/-- The filter-and-rank step (main.rs:115-116): `retain` keeps exactly the
records pushed strictly before the first of the month, then the stable
`sort_by` orders them by push timestamp descending. Rust's `Vec::sort_by` is a
stable sort; it is modelled by the stable `List.insertionSort` with the same
comparator (a stable sort's output is uniquely determined by the comparator
and the input order, so the choice of stable algorithm is immaterial). -/
def filter_and_rank (first_of_the_month : Int) (images : List ImageDetail) :
    List ImageDetail :=
  (images.filter fun details => decide (pushed_at details < first_of_the_month)).insertionSort
    image_desc

/-- `Repo` (main.rs:13-20). `last_pushed_at` is `Option<String>` in the source,
produced by `to_string()` on the datetime; it is kept here as the underlying
timestamp. -/
structure Repo where
  name : String
  last_pushed_at : Option Int
  latest_image_size : Int
  aggregate_image_size : Int
  recent_image_size : Int
  hosted_images : Nat
deriving DecidableEq, Repr

/-- `Repo::COMPRESSION` (main.rs:26). -/
def COMPRESSION : ℚ := 0.65

/-- `Repo::monthly_cost` (main.rs:29-31):
`(aggregate_image_size as f64 * COMPRESSION / (1024*1024*1024) as f64) * 0.10`. -/
def Repo.monthly_cost (r : Repo) : ℚ :=
  (r.aggregate_image_size * COMPRESSION / (1024 * 1024 * 1024)) * 0.10

/-- `Repo::monthly_capped_cost` (main.rs:35-37). -/
def Repo.monthly_capped_cost (r : Repo) : ℚ :=
  (r.recent_image_size * COMPRESSION / (1024 * 1024 * 1024)) * 0.10

/-- The body of the `try_fold` closure in `repos` (main.rs:114-138): summarize
one repository from its fetched image list. -/
def mk_repo (cap : Nat) (first_of_the_month : Int) (repository_name : String)
    (fetched : List ImageDetail) : Repo :=
  let images := filter_and_rank first_of_the_month fetched
  let capped_images := images.take cap
  { name := repository_name
    last_pushed_at := images.head?.map pushed_at
    latest_image_size := (images.head?.map image_size).getD 0
    aggregate_image_size := (images.map image_size).sum
    recent_image_size := (capped_images.map image_size).sum
    hosted_images := images.length }

/-- One page response of the ECR API: the possibly-absent item list
(`image_details` / `repositories`, `unwrap_or_default` in the source) and the
optional continuation token. -/
structure PageResp (α : Type) where
  items : Option (List α)
  next_token : Option String
deriving DecidableEq

/-- The items of a page, with a missing list defaulting to empty
(`unwrap_or_default()` at main.rs:64/72 and 88/92). -/
def page_items {α : Type} (r : PageResp α) : List α :=
  r.items.getD []

/-- `load_all_images` (main.rs:50-74). The network is modelled by the stream of
responses the server gives to the successive `describe_images` requests; each
request either fails (`Except.error`, propagated by `?`) or yields a page. The
page's items come first, and when the page carries a continuation token the
recursive call's items are appended after them. -/
def load_all_images {ε : Type} :
    List (Except ε (PageResp ImageDetail)) → Except ε (List ImageDetail)
  | [] => .ok []
  | .error e :: _ => .error e
  | .ok page :: rest =>
    match page.next_token with
    | some _ =>
      match load_all_images rest with
      | .error e => .error e
      | .ok tail => .ok (page_items page ++ tail)
    | none => .ok (page_items page)

/-- `load_all_repositories` (main.rs:76-94), same recursion over
`describe_repositories` responses. -/
def load_all_repositories {ε : Type} :
    List (Except ε (PageResp Repository)) → Except ε (List Repository)
  | [] => .ok []
  | .error e :: _ => .error e
  | .ok page :: rest =>
    match page.next_token with
    | some _ =>
      match load_all_repositories rest with
      | .error e => .error e
      | .ok tail => .ok (page_items page ++ tail)
    | none => .ok (page_items page)

/-- A well-formed chain of page responses: a response carries a continuation
token exactly when another page follows (the last response has no token, every
earlier one has one). The stream is nonempty because the first request is
always answered. -/
def chained {α : Type} : List (PageResp α) → Bool
  | [] => false
  | [r] => r.next_token.isNone
  | r :: rest => r.next_token.isSome && chained rest

/-- The comparator of
`repos.sort_by(|a, b| b.latest_image_size.cmp(&a.latest_image_size))`
(main.rs:148), as the before-or-equal relation of a stable sort. -/
def repo_desc (a b : Repo) : Prop :=
  b.latest_image_size ≤ a.latest_image_size

instance : DecidableRel repo_desc :=
  fun a b => inferInstanceAs (Decidable (b.latest_image_size ≤ a.latest_image_size))

instance : IsTotal Repo repo_desc :=
  ⟨fun a b => le_total b.latest_image_size a.latest_image_size⟩

instance : IsTrans Repo repo_desc :=
  ⟨fun _ _ _ hab hbc => le_trans hbc hab⟩

/-- The sorting step of `main` (main.rs:148): stable sort of the summaries by
descending latest image size (modelled by the stable `List.insertionSort`,
like `filter_and_rank`). -/
def sort_repos (rs : List Repo) : List Repo :=
  rs.insertionSort repo_desc

/-- The registry server as seen by one run: the response stream answering the
`describe_repositories` request chain, and, for each repository name, the
response stream answering its `describe_images` request chain. -/
structure Server (ε : Type) where
  repositories : List (Except ε (PageResp Repository))
  images : String → List (Except ε (PageResp ImageDetail))

/-- The `try_fold` loop of `repos` (main.rs:111-140): summarize the listed
repositories in order, pushing each summary onto the accumulator and aborting
on the first image-listing error. -/
def summarize_all {ε : Type} (server : Server ε) (cap : Nat)
    (first_of_the_month : Int) (acc : List Repo) :
    List Repository → Except ε (List Repo)
  | [] => .ok acc
  | repo :: rest =>
    let repository_name := repo.repository_name.getD ""
    match load_all_images (server.images repository_name) with
    | .error e => .error e
    | .ok images =>
      summarize_all server cap first_of_the_month
        (acc ++ [mk_repo cap first_of_the_month repository_name images]) rest

/-- `repos` (main.rs:100-141): list all repositories, then summarize each. The
source computes `first_of_the_month` from the wall clock (the first instant of
the current UTC month); it is a parameter here. -/
def repos {ε : Type} (server : Server ε) (cap : Nat) (first_of_the_month : Int) :
    Except ε (List Repo) :=
  match load_all_repositories server.repositories with
  | .error e => .error e
  | .ok rs => summarize_all server cap first_of_the_month [] rs

/-- One line of the report, in terminal order: a per-repository row carrying
the fields of main.rs:163-184 (name, last-pushed, latest size, hosted count,
monthly cost, capped cost) or the trailing totals row of main.rs:197. -/
inductive OutLine
  | row (name : String) (last_pushed_at : Option Int) (latest_image_size : Int)
      (hosted_images : Nat) (monthly_cost monthly_capped_cost : ℚ)
  | totals (monthly capped : ℚ)
deriving DecidableEq

/-- The row printed for one repository; tsv (main.rs:163-172) and csv
(main.rs:175-183) emit the same fields in the same order. -/
def row_line (repo : Repo) : OutLine :=
  .row repo.name repo.last_pushed_at repo.latest_image_size repo.hosted_images
    repo.monthly_cost repo.monthly_capped_cost

/-- One step of the totals `try_fold` (main.rs:149-192): emit the repository
row when the format asks for one, and add this repository's costs to the two
running totals. Write failures (`IoError`) are not modelled. -/
def emit_step (format : String) (st : List OutLine × ℚ × ℚ) (repo : Repo) :
    List OutLine × ℚ × ℚ :=
  let lines :=
    match format with
    | "tsv" => st.1 ++ [row_line repo]
    | "csv" => st.1 ++ [row_line repo]
    | _ => st.1
  (lines, st.2.1 + repo.monthly_cost, st.2.2 + repo.monthly_capped_cost)

/-- `main` (main.rs:143-204): fetch and summarize, sort by descending latest
image size, fold the rows and totals, and append the totals line in tsv format
only (main.rs:194-201). Returns the emitted lines in terminal order together
with the two accumulated totals. -/
def main {ε : Type} (format : String) (cap : Nat) (first_of_the_month : Int)
    (server : Server ε) : Except ε (List OutLine × ℚ × ℚ) :=
  match repos server cap first_of_the_month with
  | .error e => .error e
  | .ok rs =>
    let sorted := sort_repos rs
    let st := sorted.foldl (emit_step format) ([], 0, 0)
    let lines :=
      match format with
      | "tsv" => st.1 ++ [.totals st.2.1 st.2.2]
      | _ => st.1
    .ok (lines, st.2.1, st.2.2)

/-- The rows the totals fold emits for a format: one per repository for tsv
and csv, none for any other format. -/
def rows_for (format : String) (rs : List Repo) : List OutLine :=
  match format with
  | "tsv" => rs.map row_line
  | "csv" => rs.map row_line
  | _ => []

/-- The lines one repository contributes: its row for tsv and csv, nothing
for any other format. -/
def row_for (format : String) (repo : Repo) : List OutLine :=
  match format with
  | "tsv" => [row_line repo]
  | "csv" => [row_line repo]
  | _ => []

/-- The trailing totals row: emitted in tsv format only. -/
def totals_for (format : String) (monthly capped : ℚ) : List OutLine :=
  match format with
  | "tsv" => [.totals monthly capped]
  | _ => []

/-- Recognizer for per-repository rows. -/
def is_row_line : OutLine → Bool
  | .row _ _ _ _ _ _ => true
  | .totals _ _ => false

/-- Recognizer for the totals row. -/
def is_totals_line : OutLine → Bool
  | .row _ _ _ _ _ _ => false
  | .totals _ _ => true

/-- The monthly-cost field of a line. -/
def line_monthly_cost : OutLine → ℚ
  | .row _ _ _ _ m _ => m
  | .totals m _ => m

/-- The capped-cost field of a line. -/
def line_capped_cost : OutLine → ℚ
  | .row _ _ _ _ _ c => c
  | .totals _ c => c

/-- Concrete one-repository server whose single image has size 0, for
witnesses: every cost is exactly 0. -/
def ex_server : Server String :=
  { repositories := [.ok ⟨some [⟨some "a"⟩], none⟩]
    images := fun _ => [.ok ⟨some [⟨some 1, some 0⟩], none⟩] }

/-- The summary `ex_server` produces for its only repository (cap 2,
cutoff 10). -/
def ex_repo : Repo :=
  mk_repo 2 10 "a" [⟨some 1, some 0⟩]

/-- The sorted summary list of `ex_server`. -/
def ex_sorted : List Repo := sort_repos [ex_repo]

/-- The monthly-cost total of `ex_server`. -/
def ex_monthly : ℚ := (ex_sorted.map Repo.monthly_cost).sum

/-- The capped-cost total of `ex_server`. -/
def ex_capped : ℚ := (ex_sorted.map Repo.monthly_capped_cost).sum

/-- The tsv lines emitted for `ex_server`. -/
def ex_lines_tsv : List OutLine :=
  rows_for "tsv" ex_sorted ++ totals_for "tsv" ex_monthly ex_capped

/-- The csv lines emitted for `ex_server`. -/
def ex_lines_csv : List OutLine :=
  rows_for "csv" ex_sorted ++ totals_for "csv" ex_monthly ex_capped

/-- A server whose repository listing fails immediately. -/
def ex_server_down : Server String :=
  { repositories := [.error "down"]
    images := fun _ => [] }

/-- One unfolding step of `load_all_images` on a successful page that carries a
continuation token. -/
theorem load_all_images_cons_some {ε : Type} (page : PageResp ImageDetail)
    (rest : List (Except ε (PageResp ImageDetail))) (tok : String)
    (htok : page.next_token = some tok) :
    load_all_images (Except.ok page :: rest) =
      match load_all_images rest with
      | .error e => .error e
      | .ok tail => .ok (page_items page ++ tail) := by
  rw [load_all_images.eq_def]
  simp [htok]

/-- One unfolding step of `load_all_repositories` on a successful page that
carries a continuation token. -/
theorem load_all_repositories_cons_some {ε : Type} (page : PageResp Repository)
    (rest : List (Except ε (PageResp Repository))) (tok : String)
    (htok : page.next_token = some tok) :
    load_all_repositories (Except.ok page :: rest) =
      match load_all_repositories rest with
      | .error e => .error e
      | .ok tail => .ok (page_items page ++ tail) := by
  rw [load_all_repositories.eq_def]
  simp [htok]

/-- On a well-formed chain of successful responses, `load_all_images` returns
the concatenation of all pages. -/
theorem load_all_images_join {ε : Type} (resps : List (PageResp ImageDetail))
    (h : chained resps = true) :
    load_all_images (ε := ε) (resps.map Except.ok) =
      .ok (resps.map page_items).flatten := by
  induction resps with
  | nil => simp [chained] at h
  | cons r rest ih =>
    cases rest with
    | nil =>
      have hnone : r.next_token = none := by
        simpa [chained, Option.isNone_iff_eq_none] using h
      simp [load_all_images, hnone]
    | cons r2 rest2 =>
      have h' : r.next_token.isSome = true ∧ chained (r2 :: rest2) = true := by
        simpa [chained] using h
      obtain ⟨tok, htok⟩ := Option.isSome_iff_exists.mp h'.1
      have hrec := ih h'.2
      show load_all_images (Except.ok r :: List.map Except.ok (r2 :: rest2)) =
        Except.ok ((List.map page_items (r :: r2 :: rest2)).flatten)
      rw [load_all_images_cons_some r _ tok htok, hrec]
      simp

/-- On a well-formed chain of successful responses, `load_all_repositories`
returns the concatenation of all pages. -/
theorem load_all_repositories_join {ε : Type} (resps : List (PageResp Repository))
    (h : chained resps = true) :
    load_all_repositories (ε := ε) (resps.map Except.ok) =
      .ok (resps.map page_items).flatten := by
  induction resps with
  | nil => simp [chained] at h
  | cons r rest ih =>
    cases rest with
    | nil =>
      have hnone : r.next_token = none := by
        simpa [chained, Option.isNone_iff_eq_none] using h
      simp [load_all_repositories, hnone]
    | cons r2 rest2 =>
      have h' : r.next_token.isSome = true ∧ chained (r2 :: rest2) = true := by
        simpa [chained] using h
      obtain ⟨tok, htok⟩ := Option.isSome_iff_exists.mp h'.1
      have hrec := ih h'.2
      show load_all_repositories (Except.ok r :: List.map Except.ok (r2 :: rest2)) =
        Except.ok ((List.map page_items (r :: r2 :: rest2)).flatten)
      rw [load_all_repositories_cons_some r _ tok htok, hrec]
      simp

/-- Concrete two-page image listing: page one holds one image and carries a
continuation token, page two is empty and carries none. -/
def ex_pages_images : List (PageResp ImageDetail) :=
  [⟨some [⟨some 3, some 7⟩], some "t"⟩, ⟨some [], none⟩]

/-- The same image sequence as `ex_pages_images`, chunked into a single page. -/
def ex_pages_images' : List (PageResp ImageDetail) :=
  [⟨some [⟨some 3, some 7⟩], none⟩]

/-- Concrete one-page repository listing. -/
def ex_pages_repos : List (PageResp Repository) :=
  [⟨some [⟨some "a"⟩], none⟩]

/-- The same repository sequence as `ex_pages_repos`, chunked into two pages. -/
def ex_pages_repos' : List (PageResp Repository) :=
  [⟨some [], some "u"⟩, ⟨some [⟨some "a"⟩], none⟩]

/-- The cost formula as the specification words it: bytes to gigabytes
(divide by 2^30), times the compression factor 0.65, times the unit price
0.10 dollars per GB-month. -/
def spec_cost (bytes : Int) : ℚ :=
  ((bytes : ℚ) / 2 ^ 30) * 0.65 * 0.10

/-- **C1.** For every collection of image records and every cutoff instant, the
filter-and-rank step returns exactly the records pushed strictly before the
cutoff (as a permutation of the filtered subsequence, so no record is added,
lost or duplicated), ordered by push timestamp descending; a missing push
timestamp is treated as the epoch (timestamp 0) both by the filter and by the
ordering, since both go through `pushed_at`. -/
theorem filter_and_rank_spec (first_of_the_month : Int)
    (images : List ImageDetail) :
    List.Perm (filter_and_rank first_of_the_month images)
      (images.filter fun details => decide (pushed_at details < first_of_the_month)) ∧
    (filter_and_rank first_of_the_month images).Pairwise
      (fun a b => pushed_at b ≤ pushed_at a) ∧
    (∀ d ∈ filter_and_rank first_of_the_month images,
      pushed_at d < first_of_the_month) ∧
    (∀ d : ImageDetail, d.image_pushed_at = none → pushed_at d = 0) := by
  refine ⟨List.perm_insertionSort _ _, ?_, ?_, ?_⟩
  · exact List.sorted_insertionSort image_desc _
  · intro d hd
    have hd' : d ∈ images.filter
        (fun details => decide (pushed_at details < first_of_the_month)) :=
      (List.mem_insertionSort image_desc).mp hd
    simpa using (List.mem_filter.mp hd').2
  · intro d hd
    simp [pushed_at, hd]

/-- **C2.** `monthly_cost` equals the spec formula (bytes over 2^30, times the
compression constant 0.65, times the unit price 0.10) applied to
`aggregate_image_size`, and `monthly_capped_cost` is the identical formula
applied to `recent_image_size`. -/
theorem monthly_cost_formula (r : Repo) :
    r.monthly_cost = spec_cost r.aggregate_image_size ∧
    r.monthly_capped_cost = spec_cost r.recent_image_size := by
  constructor <;>
    · simp only [Repo.monthly_cost, Repo.monthly_capped_cost, spec_cost, COMPRESSION]
      ring

/-- **C3.** For every well-formed chain of pages (a response carries a next
token exactly when another page follows), the pagination aggregator returns
the concatenation of all pages — so the result has length `sum(ki)` and
contains every item of every page — and any two chains holding the same
underlying item sequence aggregate to the same result (invariance under
re-chunking); both for the list-images and the list-repositories operation. -/
theorem pagination_aggregation {ε : Type}
    (ri ri' : List (PageResp ImageDetail)) (rr rr' : List (PageResp Repository))
    (hi : chained ri = true) (hi' : chained ri' = true)
    (hr : chained rr = true) (hr' : chained rr' = true) :
    (load_all_images (ε := ε) (ri.map Except.ok) = .ok (ri.map page_items).flatten ∧
      (ri.map page_items).flatten.length = ((ri.map page_items).map List.length).sum ∧
      ((ri.map page_items).flatten = (ri'.map page_items).flatten →
        load_all_images (ε := ε) (ri.map Except.ok) =
          load_all_images (ε := ε) (ri'.map Except.ok))) ∧
    (load_all_repositories (ε := ε) (rr.map Except.ok) = .ok (rr.map page_items).flatten ∧
      (rr.map page_items).flatten.length = ((rr.map page_items).map List.length).sum ∧
      ((rr.map page_items).flatten = (rr'.map page_items).flatten →
        load_all_repositories (ε := ε) (rr.map Except.ok) =
          load_all_repositories (ε := ε) (rr'.map Except.ok))) := by
  refine ⟨⟨load_all_images_join ri hi, List.length_flatten _, fun hjoin => ?_⟩,
    ⟨load_all_repositories_join rr hr, List.length_flatten _, fun hjoin => ?_⟩⟩
  · rw [load_all_images_join ri hi, load_all_images_join ri' hi', hjoin]
  · rw [load_all_repositories_join rr hr, load_all_repositories_join rr' hr', hjoin]

/-- Witness for C3 at the concrete chains above. -/
theorem pagination_aggregation_witness :
    chained ex_pages_images = true ∧ chained ex_pages_images' = true ∧
    chained ex_pages_repos = true ∧ chained ex_pages_repos' = true ∧
    ((load_all_images (ε := String) (ex_pages_images.map Except.ok) =
        .ok (ex_pages_images.map page_items).flatten ∧
      (ex_pages_images.map page_items).flatten.length =
        ((ex_pages_images.map page_items).map List.length).sum ∧
      ((ex_pages_images.map page_items).flatten =
          (ex_pages_images'.map page_items).flatten →
        load_all_images (ε := String) (ex_pages_images.map Except.ok) =
          load_all_images (ε := String) (ex_pages_images'.map Except.ok))) ∧
    (load_all_repositories (ε := String) (ex_pages_repos.map Except.ok) =
        .ok (ex_pages_repos.map page_items).flatten ∧
      (ex_pages_repos.map page_items).flatten.length =
        ((ex_pages_repos.map page_items).map List.length).sum ∧
      ((ex_pages_repos.map page_items).flatten =
          (ex_pages_repos'.map page_items).flatten →
        load_all_repositories (ε := String) (ex_pages_repos.map Except.ok) =
          load_all_repositories (ε := String) (ex_pages_repos'.map Except.ok)))) :=
  ⟨by decide, by decide, by decide, by decide,
    pagination_aggregation ex_pages_images ex_pages_images' ex_pages_repos ex_pages_repos'
      (by decide) (by decide) (by decide) (by decide)⟩

/-- Every record surviving the filter-and-rank step comes from the fetched
list. -/
theorem mem_filter_and_rank {first_of_the_month : Int} {fetched : List ImageDetail}
    {d : ImageDetail} (hd : d ∈ filter_and_rank first_of_the_month fetched) :
    d ∈ fetched := by
  have := (List.mem_insertionSort image_desc).mp hd
  exact (List.mem_filter.mp this).1

/-- **C4 (as stated) is false**: the source copies `image_size_in_bytes`
(an `i64` the API could set to any value) into the summary without clamping,
so a single image whose reported size is -1 produces a RepoSummary whose
`aggregate_image_size` (and `latest_image_size`) is negative. -/
theorem repo_invariants_counterexample :
    (mk_repo 2 0 "repo"
      [{ image_pushed_at := some (-5), image_size_in_bytes := some (-1) }]).aggregate_image_size
      < 0 := by decide

/-- **C4 (amended).** Provided every image record's size field, when present,
is non-negative, each RepoSummary built by the summarizing step has
non-negative size fields and count, `recent_image_size ≤ aggregate_image_size`,
and `hosted_images` equals the length of the list of image sizes summed to
produce `aggregate_image_size`. -/
theorem repo_invariants (cap : Nat) (first_of_the_month : Int) (name : String)
    (fetched : List ImageDetail)
    (hsz : ∀ d ∈ fetched, 0 ≤ image_size d) :
    0 ≤ (mk_repo cap first_of_the_month name fetched).latest_image_size ∧
    0 ≤ (mk_repo cap first_of_the_month name fetched).aggregate_image_size ∧
    0 ≤ (mk_repo cap first_of_the_month name fetched).recent_image_size ∧
    0 ≤ ((mk_repo cap first_of_the_month name fetched).hosted_images : Int) ∧
    (mk_repo cap first_of_the_month name fetched).recent_image_size ≤
      (mk_repo cap first_of_the_month name fetched).aggregate_image_size ∧
    (mk_repo cap first_of_the_month name fetched).hosted_images =
      ((filter_and_rank first_of_the_month fetched).map image_size).length ∧
    (mk_repo cap first_of_the_month name fetched).aggregate_image_size =
      ((filter_and_rank first_of_the_month fetched).map image_size).sum := by
  have hmem : ∀ d ∈ filter_and_rank first_of_the_month fetched, 0 ≤ image_size d :=
    fun d hd => hsz d (mem_filter_and_rank hd)
  set images := filter_and_rank first_of_the_month fetched with himages
  have hsum_nonneg : ∀ l : List ImageDetail,
      (∀ d ∈ l, 0 ≤ image_size d) → 0 ≤ (l.map image_size).sum := by
    intro l hl
    apply List.sum_nonneg
    intro x hx
    obtain ⟨d, hd, rfl⟩ := List.mem_map.mp hx
    exact hl d hd
  refine ⟨?_, ?_, ?_, ?_, ?_, ?_, ?_⟩
  · show 0 ≤ (images.head?.map image_size).getD 0
    cases hh : images.head? with
    | none => simp
    | some d =>
      have hdmem : d ∈ images := List.mem_of_mem_head? hh
      simpa using hmem d hdmem
  · exact hsum_nonneg images hmem
  · exact hsum_nonneg (images.take cap)
      (fun d hd => hmem d (List.mem_of_mem_take hd))
  · exact Int.natCast_nonneg _
  · show ((images.take cap).map image_size).sum ≤ (images.map image_size).sum
    have hsplit : (images.map image_size).sum =
        ((images.map image_size).take cap).sum + ((images.map image_size).drop cap).sum := by
      rw [← List.sum_append, List.take_append_drop]
    have hdrop : 0 ≤ ((images.map image_size).drop cap).sum := by
      apply List.sum_nonneg
      intro x hx
      have hx' : x ∈ images.map image_size := List.mem_of_mem_drop hx
      obtain ⟨d, hd, rfl⟩ := List.mem_map.mp hx'
      exact hmem d hd
    rw [List.map_take, hsplit]
    omega
  · show images.length = (images.map image_size).length
    simp
  · rfl

/-- Witness for the amended C4 on a two-image repository with non-negative
sizes (one of them pushed at the epoch with an absent size). -/
theorem repo_invariants_witness :
    (∀ d ∈ [({ image_pushed_at := some 1, image_size_in_bytes := some 5 } : ImageDetail),
            { image_pushed_at := none, image_size_in_bytes := none }], 0 ≤ image_size d) ∧
    (0 ≤ (mk_repo 2 10 "r"
        [{ image_pushed_at := some 1, image_size_in_bytes := some 5 },
         { image_pushed_at := none, image_size_in_bytes := none }]).latest_image_size ∧
      0 ≤ (mk_repo 2 10 "r"
        [{ image_pushed_at := some 1, image_size_in_bytes := some 5 },
         { image_pushed_at := none, image_size_in_bytes := none }]).aggregate_image_size ∧
      0 ≤ (mk_repo 2 10 "r"
        [{ image_pushed_at := some 1, image_size_in_bytes := some 5 },
         { image_pushed_at := none, image_size_in_bytes := none }]).recent_image_size ∧
      0 ≤ ((mk_repo 2 10 "r"
        [{ image_pushed_at := some 1, image_size_in_bytes := some 5 },
         { image_pushed_at := none, image_size_in_bytes := none }]).hosted_images : Int) ∧
      (mk_repo 2 10 "r"
        [{ image_pushed_at := some 1, image_size_in_bytes := some 5 },
         { image_pushed_at := none, image_size_in_bytes := none }]).recent_image_size ≤
        (mk_repo 2 10 "r"
        [{ image_pushed_at := some 1, image_size_in_bytes := some 5 },
         { image_pushed_at := none, image_size_in_bytes := none }]).aggregate_image_size ∧
      (mk_repo 2 10 "r"
        [{ image_pushed_at := some 1, image_size_in_bytes := some 5 },
         { image_pushed_at := none, image_size_in_bytes := none }]).hosted_images =
        ((filter_and_rank 10
          [{ image_pushed_at := some 1, image_size_in_bytes := some 5 },
           { image_pushed_at := none, image_size_in_bytes := none }]).map image_size).length ∧
      (mk_repo 2 10 "r"
        [{ image_pushed_at := some 1, image_size_in_bytes := some 5 },
         { image_pushed_at := none, image_size_in_bytes := none }]).aggregate_image_size =
        ((filter_and_rank 10
          [{ image_pushed_at := some 1, image_size_in_bytes := some 5 },
           { image_pushed_at := none, image_size_in_bytes := none }]).map image_size).sum) :=
  ⟨by decide, repo_invariants 2 10 "r"
    [{ image_pushed_at := some 1, image_size_in_bytes := some 5 },
     { image_pushed_at := none, image_size_in_bytes := none }] (by decide)⟩

/-- **C5.** A RepoSummary with `hosted_images = 0` (empty filtered image list)
has `latest_image_size`, `aggregate_image_size` and `recent_image_size` all
zero, and both monthly costs are zero. -/
theorem repo_empty_zero (cap : Nat) (first_of_the_month : Int) (name : String)
    (fetched : List ImageDetail)
    (h : (mk_repo cap first_of_the_month name fetched).hosted_images = 0) :
    (mk_repo cap first_of_the_month name fetched).latest_image_size = 0 ∧
    (mk_repo cap first_of_the_month name fetched).aggregate_image_size = 0 ∧
    (mk_repo cap first_of_the_month name fetched).recent_image_size = 0 ∧
    (mk_repo cap first_of_the_month name fetched).monthly_cost = 0 ∧
    (mk_repo cap first_of_the_month name fetched).monthly_capped_cost = 0 := by
  have hnil : filter_and_rank first_of_the_month fetched = [] :=
    List.length_eq_zero.mp h
  refine ⟨?_, ?_, ?_, ?_, ?_⟩ <;>
    simp [mk_repo, hnil, Repo.monthly_cost, Repo.monthly_capped_cost]

/-- Witness for C5 on a repository whose only image is pushed after the
cutoff, so the filtered list is empty. -/
theorem repo_empty_zero_witness :
    (mk_repo 2 0 "r"
      [{ image_pushed_at := some 9, image_size_in_bytes := some 5 }]).hosted_images = 0 ∧
    ((mk_repo 2 0 "r"
      [{ image_pushed_at := some 9, image_size_in_bytes := some 5 }]).latest_image_size = 0 ∧
    (mk_repo 2 0 "r"
      [{ image_pushed_at := some 9, image_size_in_bytes := some 5 }]).aggregate_image_size = 0 ∧
    (mk_repo 2 0 "r"
      [{ image_pushed_at := some 9, image_size_in_bytes := some 5 }]).recent_image_size = 0 ∧
    (mk_repo 2 0 "r"
      [{ image_pushed_at := some 9, image_size_in_bytes := some 5 }]).monthly_cost = 0 ∧
    (mk_repo 2 0 "r"
      [{ image_pushed_at := some 9, image_size_in_bytes := some 5 }]).monthly_capped_cost = 0) :=
  ⟨by decide, repo_empty_zero 2 0 "r"
    [{ image_pushed_at := some 9, image_size_in_bytes := some 5 }] (by decide)⟩

/-- `rows_for` of the empty summary list is empty for every format. -/
theorem rows_for_nil (format : String) : rows_for format [] = [] := by
  unfold rows_for
  split <;> simp_all

/-- `rows_for` distributes over cons. -/
theorem rows_for_cons (format : String) (repo : Repo) (rs : List Repo) :
    rows_for format (repo :: rs) = row_for format repo ++ rows_for format rs := by
  unfold rows_for row_for
  split <;> simp_all

/-- For a format other than tsv and csv, no rows are emitted. -/
theorem rows_for_default {format : String} (h1 : format ≠ "tsv")
    (h2 : format ≠ "csv") (rs : List Repo) : rows_for format rs = [] := by
  unfold rows_for
  split <;> simp_all

/-- For a format other than tsv, no totals row is emitted. -/
theorem totals_for_default {format : String} (h1 : format ≠ "tsv")
    (monthly capped : ℚ) : totals_for format monthly capped = [] := by
  unfold totals_for
  split <;> simp_all

/-- `emit_step` in terms of `row_for`. -/
theorem emit_step_eq (format : String) (st : List OutLine × ℚ × ℚ) (repo : Repo) :
    emit_step format st repo =
      (st.1 ++ row_for format repo,
        st.2.1 + repo.monthly_cost, st.2.2 + repo.monthly_capped_cost) := by
  unfold emit_step row_for
  split <;> simp_all

/-- Closed form of the totals fold (main.rs:149-193): it appends the format's
rows in summary order and adds up both cost columns in that same order. -/
theorem foldl_emit_step (format : String) (rs : List Repo) :
    ∀ (lines : List OutLine) (cost capped_cost : ℚ),
      rs.foldl (emit_step format) (lines, cost, capped_cost) =
        (lines ++ rows_for format rs,
          cost + (rs.map Repo.monthly_cost).sum,
          capped_cost + (rs.map Repo.monthly_capped_cost).sum) := by
  induction rs with
  | nil =>
    intro lines cost capped_cost
    simp [rows_for_nil]
  | cons repo rest ih =>
    intro lines cost capped_cost
    rw [List.foldl_cons, emit_step_eq, ih, rows_for_cons]
    simp [add_assoc, List.append_assoc]

/-- Closed form of `main` when the network run succeeds. -/
theorem main_ok {ε : Type} (format : String) (cap : Nat) (first_of_the_month : Int)
    (server : Server ε) (rs : List Repo)
    (h : repos server cap first_of_the_month = .ok rs) :
    main format cap first_of_the_month server =
      .ok (rows_for format (sort_repos rs) ++
          totals_for format ((sort_repos rs).map Repo.monthly_cost).sum
            ((sort_repos rs).map Repo.monthly_capped_cost).sum,
        ((sort_repos rs).map Repo.monthly_cost).sum,
        ((sort_repos rs).map Repo.monthly_capped_cost).sum) := by
  unfold main
  rw [h]
  show Except.ok _ = _
  rw [foldl_emit_step]
  unfold totals_for
  split <;> simp_all

/-- A failed network run makes `main` return the error unchanged, with no
output. -/
theorem main_error {ε : Type} (format : String) (cap : Nat)
    (first_of_the_month : Int) (server : Server ε) (e : ε)
    (h : repos server cap first_of_the_month = .error e) :
    main format cap first_of_the_month server = .error e := by
  unfold main
  rw [h]

/-- The aggregator hits the error as soon as the server fails: every earlier
response carried a token, so every earlier page triggered a next request. -/
theorem load_all_images_error {ε : Type} (e : ε)
    (rest : List (Except ε (PageResp ImageDetail))) :
    ∀ pre : List (PageResp ImageDetail),
      (∀ r ∈ pre, r.next_token.isSome = true) →
      load_all_images (pre.map Except.ok ++ Except.error e :: rest) = .error e := by
  intro pre
  induction pre with
  | nil => intro _; rfl
  | cons r pre ih =>
    intro hpre
    obtain ⟨tok, htok⟩ :=
      Option.isSome_iff_exists.mp (hpre r (List.mem_cons_self r pre))
    rw [List.map_cons, List.cons_append, load_all_images_cons_some r _ tok htok,
      ih (fun x hx => hpre x (List.mem_cons_of_mem r hx))]

/-- Same as `load_all_images_error` for the repository listing. -/
theorem load_all_repositories_error {ε : Type} (e : ε)
    (rest : List (Except ε (PageResp Repository))) :
    ∀ pre : List (PageResp Repository),
      (∀ r ∈ pre, r.next_token.isSome = true) →
      load_all_repositories (pre.map Except.ok ++ Except.error e :: rest) = .error e := by
  intro pre
  induction pre with
  | nil => intro _; rfl
  | cons r pre ih =>
    intro hpre
    obtain ⟨tok, htok⟩ :=
      Option.isSome_iff_exists.mp (hpre r (List.mem_cons_self r pre))
    rw [List.map_cons, List.cons_append, load_all_repositories_cons_some r _ tok htok,
      ih (fun x hx => hpre x (List.mem_cons_of_mem r hx))]

/-- Rows built from summaries are all row lines, never totals lines. -/
theorem filter_map_row_line (rs : List Repo) :
    (rs.map row_line).filter is_row_line = rs.map row_line ∧
    (rs.map row_line).filter is_totals_line = [] := by
  constructor
  · apply List.filter_eq_self.mpr
    intro a ha
    obtain ⟨r, _, rfl⟩ := List.mem_map.mp ha
    rfl
  · apply List.filter_eq_nil_iff.mpr
    intro a ha
    obtain ⟨r, _, rfl⟩ := List.mem_map.mp ha
    simp [row_line, is_totals_line]

/-- **C6.** The report rows are ordered by the stable sort of the summaries by
descending latest-image size: the sorted sequence is a permutation of the
input, it is sorted descending by `latest_image_size`, and summaries with the
same latest-image size keep their input order (the filter of the output at any
key equals the filter of the input at that key — the stability property). -/
theorem report_rows_sorted (rs : List Repo) :
    List.Perm (sort_repos rs) rs ∧
    (sort_repos rs).Pairwise
      (fun a b => b.latest_image_size ≤ a.latest_image_size) ∧
    ∀ k : Int, (sort_repos rs).filter (fun r => decide (r.latest_image_size = k)) =
      rs.filter (fun r => decide (r.latest_image_size = k)) := by
  refine ⟨List.perm_insertionSort _ _, List.sorted_insertionSort repo_desc rs, ?_⟩
  intro k
  have hpair : (rs.filter (fun r => decide (r.latest_image_size = k))).Pairwise repo_desc := by
    apply List.pairwise_of_forall_mem_list
    intro a ha b hb
    have ha' := of_decide_eq_true (List.mem_filter.mp ha).2
    have hb' := of_decide_eq_true (List.mem_filter.mp hb).2
    show b.latest_image_size ≤ a.latest_image_size
    rw [ha', hb']
  have hsub2 : List.Sublist (rs.filter (fun r => decide (r.latest_image_size = k)))
      (sort_repos rs) :=
    List.sublist_insertionSort hpair (List.filter_sublist rs)
  have h1 : (rs.filter (fun r => decide (r.latest_image_size = k))).filter
      (fun r => decide (r.latest_image_size = k)) =
      rs.filter (fun r => decide (r.latest_image_size = k)) := by
    apply List.filter_eq_self.mpr
    intro a ha
    exact (List.mem_filter.mp ha).2
  have hsub3 : List.Sublist (rs.filter (fun r => decide (r.latest_image_size = k)))
      ((sort_repos rs).filter (fun r => decide (r.latest_image_size = k))) := by
    have := hsub2.filter (fun r => decide (r.latest_image_size = k))
    rwa [h1] at this
  have hlen : ((sort_repos rs).filter (fun r => decide (r.latest_image_size = k))).length =
      (rs.filter (fun r => decide (r.latest_image_size = k))).length :=
    ((List.perm_insertionSort repo_desc rs).filter _).length_eq
  exact (hsub3.eq_of_length hlen.symm).symm

/-- **C7.** The two grand totals of a tsv report equal the sums of the emitted
rows' `monthly_cost` and `monthly_capped_cost` columns, accumulated in the
same order as the rows (exactly, since the `f64` arithmetic is modelled over
ℚ); and those totals are the ones on the emitted totals line. -/
theorem totals_eq_row_sums {ε : Type} (cap : Nat) (first_of_the_month : Int)
    (server : Server ε) (lines : List OutLine) (monthly capped : ℚ)
    (h : main "tsv" cap first_of_the_month server = .ok (lines, monthly, capped)) :
    monthly = ((lines.filter is_row_line).map line_monthly_cost).sum ∧
    capped = ((lines.filter is_row_line).map line_capped_cost).sum ∧
    lines.getLast? = some (.totals monthly capped) := by
  cases hre : repos server cap first_of_the_month with
  | error e =>
    rw [main_error "tsv" cap first_of_the_month server e hre] at h
    cases h
  | ok rs =>
    rw [main_ok "tsv" cap first_of_the_month server rs hre] at h
    simp only [Except.ok.injEq, Prod.mk.injEq] at h
    obtain ⟨hl, hm, hc⟩ := h
    subst hm
    subst hc
    subst hl
    have hrows : rows_for "tsv" (sort_repos rs) = (sort_repos rs).map row_line := rfl
    have htot : totals_for "tsv" ((sort_repos rs).map Repo.monthly_cost).sum
        ((sort_repos rs).map Repo.monthly_capped_cost).sum =
        [.totals ((sort_repos rs).map Repo.monthly_cost).sum
          ((sort_repos rs).map Repo.monthly_capped_cost).sum] := rfl
    rw [hrows, htot]
    refine ⟨?_, ?_, List.getLast?_concat _⟩
    · rw [List.filter_append, (filter_map_row_line (sort_repos rs)).1]
      simp [is_row_line, List.map_map, Function.comp_def, row_line, line_monthly_cost]
    · rw [List.filter_append, (filter_map_row_line (sort_repos rs)).1]
      simp [is_row_line, List.map_map, Function.comp_def, row_line, line_capped_cost]

/-- Witness for C7 on `ex_server` (one repository, one zero-size image). -/
theorem totals_eq_row_sums_witness :
    main "tsv" 2 10 ex_server = .ok (ex_lines_tsv, ex_monthly, ex_capped) ∧
    (ex_monthly = ((ex_lines_tsv.filter is_row_line).map line_monthly_cost).sum ∧
      ex_capped = ((ex_lines_tsv.filter is_row_line).map line_capped_cost).sum ∧
      ex_lines_tsv.getLast? = some (.totals ex_monthly ex_capped)) :=
  have h : main "tsv" 2 10 ex_server = .ok (ex_lines_tsv, ex_monthly, ex_capped) :=
    main_ok "tsv" 2 10 ex_server [ex_repo] (by decide)
  ⟨h, totals_eq_row_sums 2 10 ex_server ex_lines_tsv ex_monthly ex_capped h⟩

/-- **C8.** The first failing page request anywhere aborts everything: the
aggregator returns the server's error as soon as it is reached (for both
listing operations), and a failed network run makes `main` return that error
with no output lines at all — no partial aggregation, no rows. -/
theorem first_error_aborts {ε : Type} (pre : List (PageResp ImageDetail))
    (rest : List (Except ε (PageResp ImageDetail)))
    (prer : List (PageResp Repository))
    (restr : List (Except ε (PageResp Repository)))
    (e : ε) (format : String) (cap : Nat) (first_of_the_month : Int)
    (server : Server ε) (e' : ε)
    (hpre : ∀ r ∈ pre, r.next_token.isSome = true)
    (hprer : ∀ r ∈ prer, r.next_token.isSome = true)
    (hrun : repos server cap first_of_the_month = .error e') :
    load_all_images (pre.map Except.ok ++ Except.error e :: rest) = .error e ∧
    load_all_repositories (prer.map Except.ok ++ Except.error e :: restr) = .error e ∧
    main format cap first_of_the_month server = .error e' :=
  ⟨load_all_images_error e rest pre hpre,
    load_all_repositories_error e restr prer hprer,
    main_error format cap first_of_the_month server e' hrun⟩

/-- Witness for C8: a one-page prefix with a token followed by an error, and a
server whose repository listing fails with "down". -/
theorem first_error_aborts_witness :
    (∀ r ∈ [({ items := some [], next_token := some "t" } : PageResp ImageDetail)],
      r.next_token.isSome = true) ∧
    (∀ r ∈ [({ items := some [], next_token := some "t" } : PageResp Repository)],
      r.next_token.isSome = true) ∧
    repos ex_server_down 2 0 = .error "down" ∧
    (load_all_images
        ([({ items := some [], next_token := some "t" } : PageResp ImageDetail)].map
          Except.ok ++ Except.error "boom" :: []) = .error "boom" ∧
      load_all_repositories
        ([({ items := some [], next_token := some "t" } : PageResp Repository)].map
          Except.ok ++ Except.error "boom" :: []) = .error "boom" ∧
      main "tsv" 2 0 ex_server_down = .error "down") :=
  ⟨by decide, by decide, by decide,
    first_error_aborts _ [] _ [] "boom" "tsv" 2 0 ex_server_down "down"
      (by decide) (by decide) (by decide)⟩

/-- **C9.** A tsv report carries exactly one totals line, it is the final
line, and every earlier line is a repository row; a csv report carries no
totals line at all. -/
theorem tsv_totals_once_csv_none {ε : Type} (cap : Nat) (first_of_the_month : Int)
    (server : Server ε) (lines lines' : List OutLine) (monthly capped monthly' capped' : ℚ)
    (htsv : main "tsv" cap first_of_the_month server = .ok (lines, monthly, capped))
    (hcsv : main "csv" cap first_of_the_month server = .ok (lines', monthly', capped')) :
    (lines.filter is_totals_line).length = 1 ∧
    lines.getLast? = some (.totals monthly capped) ∧
    (∀ l ∈ lines.dropLast, is_totals_line l = false) ∧
    lines'.filter is_totals_line = [] := by
  cases hre : repos server cap first_of_the_month with
  | error e =>
    rw [main_error "tsv" cap first_of_the_month server e hre] at htsv
    cases htsv
  | ok rs =>
    rw [main_ok "tsv" cap first_of_the_month server rs hre] at htsv
    rw [main_ok "csv" cap first_of_the_month server rs hre] at hcsv
    simp only [Except.ok.injEq, Prod.mk.injEq] at htsv hcsv
    obtain ⟨hl, hm, hc⟩ := htsv
    obtain ⟨hl', hm', hc'⟩ := hcsv
    subst hm; subst hc; subst hl
    subst hm'; subst hc'; subst hl'
    have hrows : rows_for "tsv" (sort_repos rs) = (sort_repos rs).map row_line := rfl
    have hrows' : rows_for "csv" (sort_repos rs) = (sort_repos rs).map row_line := rfl
    have htot : totals_for "tsv" ((sort_repos rs).map Repo.monthly_cost).sum
        ((sort_repos rs).map Repo.monthly_capped_cost).sum =
        [.totals ((sort_repos rs).map Repo.monthly_cost).sum
          ((sort_repos rs).map Repo.monthly_capped_cost).sum] := rfl
    have htot' : totals_for "csv" ((sort_repos rs).map Repo.monthly_cost).sum
        ((sort_repos rs).map Repo.monthly_capped_cost).sum = [] := rfl
    rw [hrows, htot, hrows', htot', List.append_nil]
    refine ⟨?_, List.getLast?_concat _, ?_, (filter_map_row_line (sort_repos rs)).2⟩
    · rw [List.filter_append, (filter_map_row_line (sort_repos rs)).2]
      rfl
    · intro l hl
      rw [List.dropLast_concat] at hl
      obtain ⟨r, _, rfl⟩ := List.mem_map.mp hl
      rfl

/-- Witness for C9 on `ex_server`. -/
theorem tsv_totals_once_csv_none_witness :
    main "tsv" 2 10 ex_server = .ok (ex_lines_tsv, ex_monthly, ex_capped) ∧
    main "csv" 2 10 ex_server = .ok (ex_lines_csv, ex_monthly, ex_capped) ∧
    ((ex_lines_tsv.filter is_totals_line).length = 1 ∧
      ex_lines_tsv.getLast? = some (.totals ex_monthly ex_capped) ∧
      (∀ l ∈ ex_lines_tsv.dropLast, is_totals_line l = false) ∧
      ex_lines_csv.filter is_totals_line = []) :=
  have htsv : main "tsv" 2 10 ex_server = .ok (ex_lines_tsv, ex_monthly, ex_capped) :=
    main_ok "tsv" 2 10 ex_server [ex_repo] (by decide)
  have hcsv : main "csv" 2 10 ex_server = .ok (ex_lines_csv, ex_monthly, ex_capped) :=
    main_ok "csv" 2 10 ex_server [ex_repo] (by decide)
  ⟨htsv, hcsv,
    tsv_totals_once_csv_none 2 10 ex_server ex_lines_tsv ex_lines_csv
      ex_monthly ex_capped ex_monthly ex_capped htsv hcsv⟩

/-- **C10.** For any format other than tsv and csv, a successful run emits no
lines at all — no rows and no totals line — while fetching, summarizing and
the totals accumulation still run (the returned totals are the full sums) and
the run still finishes successfully (`Except.ok`). -/
theorem unknown_format_no_output {ε : Type} (format : String) (cap : Nat)
    (first_of_the_month : Int) (server : Server ε) (rs : List Repo)
    (h1 : format ≠ "tsv") (h2 : format ≠ "csv")
    (h : repos server cap first_of_the_month = .ok rs) :
    main format cap first_of_the_month server =
      .ok ([], ((sort_repos rs).map Repo.monthly_cost).sum,
        ((sort_repos rs).map Repo.monthly_capped_cost).sum) := by
  rw [main_ok format cap first_of_the_month server rs h,
    rows_for_default h1 h2, totals_for_default h1]
  rfl

/-- Witness for C10 with format "json" on `ex_server`. -/
theorem unknown_format_no_output_witness :
    ("json" : String) ≠ "tsv" ∧ ("json" : String) ≠ "csv" ∧
    repos ex_server 2 10 = .ok [ex_repo] ∧
    main "json" 2 10 ex_server =
      .ok ([], ((sort_repos [ex_repo]).map Repo.monthly_cost).sum,
        ((sort_repos [ex_repo]).map Repo.monthly_capped_cost).sum) :=
  ⟨by decide, by decide, by decide,
    unknown_format_no_output "json" 2 10 ex_server [ex_repo]
      (by decide) (by decide) (by decide)⟩

end EcrInsights
